import Mathlib

/-!
Event-Forge inbox/outbox core: shallow embedding.

Embedding of `src/packages/python/src/event_forge_inbox_outbox` (services,
models, repository interfaces) and `src/packages/python/src/callairis_event_forge`
(models, errors).

Conventions of the embedding:
* Python `str` values that matter only as identity (message ids, worker ids,
  sources, event types, error texts) are `String`; row ids generated by the
  store are `Nat` (the store's fresh-id counter stands in for `uuid4`).
* `datetime` values are `Nat` instants.
* Opaque JSON payloads are `String` (the core never inspects them).
* Async methods are pure state-passing functions; a raised exception is an
  `Except` error value.
* The concrete repository implementations (SQLAlchemy adapters) are not part
  of the sources; where a claim depends on them they are modelled from the
  spec's Message Store contract (§4.1/§6), and each such definition says so
  in its doc comment.
-/

/-- Enum `OutboxMessageStatus` from
`event_forge_inbox_outbox/models/enums.py`: the four members
`PENDING = "pending"`, `PUBLISHED = "published"`, `FAILED = "failed"`,
`FAILED_PERMANENT = "failed_permanent"`. -/
inductive OutboxMessageStatus where
  | pending
  | published
  | failed
  | failedPermanent
deriving DecidableEq, Repr, Fintype

/-- The string value of each `OutboxMessageStatus` member (it is a `str` enum). -/
def OutboxMessageStatus.value : OutboxMessageStatus → String
  | .pending => "pending"
  | .published => "published"
  | .failed => "failed"
  | .failedPermanent => "failed_permanent"

/-- The members of `OutboxMessageStatus`, in declaration order. -/
def OutboxMessageStatus.members : List OutboxMessageStatus :=
  [.pending, .published, .failed, .failedPermanent]

/-- Enum `InboxMessageStatus` from `event_forge_inbox_outbox/models/enums.py`:
`RECEIVED`, `PROCESSING`, `PROCESSED`, `FAILED`. -/
inductive InboxMessageStatus where
  | received
  | processing
  | processed
  | failed
deriving DecidableEq, Repr, Fintype

/-- Model `OutboxMessage` from `event_forge_inbox_outbox/models/outbox_message.py`
(the pydantic entity): its `status` field is drawn from `OutboxMessageStatus`. -/
structure OutboxMessage where
  id : String
  aggregateType : String
  aggregateId : String
  eventType : String
  payload : String
  metadata : Option String
  status : OutboxMessageStatus
  retryCount : Nat
  maxRetries : Nat
  errorMessage : Option String
  scheduledAt : Option Nat
  lockedBy : Option String
  lockedAt : Option Nat
  createdAt : Nat
  updatedAt : Nat

/-- Model `InboxMessage` from `callairis_event_forge/models/inbox_message.py`:
row id, dedup key (`message_id`, `source`), event type, payload, status,
optional processing timestamp and error text. -/
structure InboxMessage where
  id : Nat
  messageId : String
  source : String
  eventType : String
  payload : String
  status : InboxMessageStatus
  processedAt : Option Nat
  errorMessage : Option String
  createdAt : Nat
deriving DecidableEq, Repr

/-- Dto `CreateInboxMessageDto` from `callairis_event_forge/models/inbox_message.py`. -/
structure CreateInboxMessageDto where
  messageId : String
  source : String
  eventType : String
  payload : String
deriving DecidableEq, Repr

/-- Errors `DuplicateMessageError` and `ProcessingError`
(`callairis_event_forge/errors/`), together with a generic handler
exception, as the error outcomes `InboxService.process_message` can raise.
`ProcessingError` and generic exceptions are both handled by marking the
message failed with the captured error text and re-raising, so both appear
here as `handlerFailure` carrying that text (`str(e)`). -/
inductive InboxError where
  | duplicate (messageId : String) (source : String)
  | handlerFailure (error : String)
deriving DecidableEq, Repr

section OutboxLifecycle

/-- The lifecycle state of `OutboxService` relevant to
`start_polling`/`stop_polling`: whether `self._polling_task` is set, and the
`self._shutdown` flag. -/
structure OutboxLifecycleState where
  pollingTaskSet : Bool
  shutdown : Bool
deriving DecidableEq, Repr

/-- An uncaught Python exception escaping a lifecycle method. `typeError`
stands for the `TypeError` raised by `await None`. -/
inductive PyError where
  | typeError
deriving DecidableEq, Repr

/-- Method `OutboxService.start_polling`: if `self._polling_task` is set, return
immediately; otherwise clear `_shutdown` and create the polling task. -/
def start_polling (s : OutboxLifecycleState) : OutboxLifecycleState :=
  if s.pollingTaskSet then s
  else { pollingTaskSet := true, shutdown := false }

/-- Method `OutboxService.stop_polling`: sets `_shutdown`; if `_polling_task` is set
it is cancelled, awaited (`CancelledError` is caught), and the field is
cleared.  The `await self._polling_task` statement is NOT guarded by the
`if self._polling_task:` test — it executes unconditionally — so when
`_polling_task` is `None`, `await None` raises a `TypeError`, which the
`except asyncio.CancelledError` clause does not catch. -/
def stop_polling (s : OutboxLifecycleState) : Except PyError OutboxLifecycleState :=
  let s1 : OutboxLifecycleState := { s with shutdown := true }
  if s1.pollingTaskSet then
    .ok { s1 with pollingTaskSet := false }
  else
    .error .typeError

end OutboxLifecycle

section OutboxStore

/-- Modelled from the spec: outbox `status` per the spec's data model (§3),
`{pending, processing, published, failed, permanently_failed}`.  The concrete
repository behind `IOutboxRepository` is not in the sources; its rows carry
this five-state status (the claim transition needs `processing`). -/
inductive SpecOutboxStatus where
  | pending
  | processing
  | published
  | failed
  | permanentlyFailed
deriving DecidableEq, Repr

/-- Modelled from the spec: a stored outbox row (§3 OutboxMessage), the unit
the Message Store contract operates on.  Row ids are `Nat`, instants are
`Nat`, payload/metadata opaque. -/
structure OutboxRow where
  id : Nat
  aggregateType : String
  aggregateId : String
  eventType : String
  payload : String
  metadata : Option String
  status : SpecOutboxStatus
  retryCount : Nat
  maxRetries : Nat
  errorMessage : Option String
  scheduledAt : Option Nat
  lockedBy : Option String
  lockedAt : Option Nat
  createdAt : Nat
deriving DecidableEq, Repr

/-- Statuses eligible for claiming: `pending` or `failed` (§3 invariants). -/
def statusClaimable : SpecOutboxStatus → Bool
  | .pending => true
  | .failed => true
  | _ => false

/-- Visibility test: `scheduledAt` unset or not in the future (§3 invariants). -/
def scheduledReady (now : Nat) : Option Nat → Bool
  | none => true
  | some t => decide (t ≤ now)

/-- Modelled from the spec: eligibility of a row for `claimBatch` (§3): status
in `{pending, failed}`, `scheduledAt` unset or `≤ now`, and not currently
locked.  (Lock TTL expiry is handled by the separate `releaseStaleLocks`
operation, which no claim here exercises, so a locked row counts as
ineligible.) -/
def isClaimable (now : Nat) (m : OutboxRow) : Bool :=
  statusClaimable m.status && scheduledReady now m.scheduledAt && m.lockedBy.isNone

/-- The claim transition (§4.1 `claimBatch`): `lockedBy := workerId`,
`lockedAt := now`, `status := processing`. -/
def lockRow (workerId : String) (now : Nat) (m : OutboxRow) : OutboxRow :=
  { m with status := .processing, lockedBy := some workerId, lockedAt := some now }

/-- A single-row conditional update by id — the only mutation shape the store
exposes (§5: all mutation is single-row conditional updates). -/
def updateById (rows : List OutboxRow) (i : Nat) (f : OutboxRow → OutboxRow) :
    List OutboxRow :=
  rows.map fun m => if m.id = i then f m else m

/-- The rows selected by one `claimBatch`: up to `limit` eligible rows,
oldest-eligible-first (the store list is kept in creation order). -/
def claimSelected (limit : Nat) (now : Nat) (rows : List OutboxRow) : List OutboxRow :=
  (rows.filter (isClaimable now)).take limit

/-- The ids of the rows selected by one `claimBatch`. -/
def claimedIds (limit : Nat) (now : Nat) (rows : List OutboxRow) : List Nat :=
  (claimSelected limit now rows).map (·.id)

/-- Modelled from the spec: `IOutboxRepository.fetch_and_lock_pending`
(§4.1 `claimBatch(limit, workerId)`): atomically selects up to `limit`
eligible rows, applies the claim transition to them in the store, and returns
the claimed (locked) messages. -/
def fetch_and_lock_pending (limit : Nat) (lockerId : String) (now : Nat)
    (rows : List OutboxRow) : List OutboxRow × List OutboxRow :=
  ((claimSelected limit now rows).map (lockRow lockerId now),
   rows.map fun m =>
     if m.id ∈ claimedIds limit now rows then lockRow lockerId now m else m)

/-- The published transition (§4.1 `publishOne`, success): `status :=
published`, lock fields cleared. -/
def publishedRow (m : OutboxRow) : OutboxRow :=
  { m with status := .published, lockedBy := none, lockedAt := none }

/-- The failure transition (§4.1 `publishOne`, failure): increments
`retryCount`; if the resulting count reaches `maxRetries` (or the caller
passed `permanent`), `status := permanently_failed`, else `status := failed`;
records the error text; clears lock fields. -/
def failedRow (error : String) (permanent : Bool) (m : OutboxRow) : OutboxRow :=
  { m with
    retryCount := m.retryCount + 1,
    status :=
      if permanent || decide (m.maxRetries ≤ m.retryCount + 1) then .permanentlyFailed
      else .failed,
    errorMessage := some error,
    lockedBy := none,
    lockedAt := none }

/-- Modelled from the spec: `IOutboxRepository.mark_published(id)`. -/
def mark_published (rows : List OutboxRow) (i : Nat) : List OutboxRow :=
  updateById rows i publishedRow

/-- Modelled from the spec: `IOutboxRepository.mark_failed(id, error,
permanent)` (§6); `OutboxService` always calls it with `permanent = false`. -/
def mark_failed (rows : List OutboxRow) (i : Nat) (error : String)
    (permanent : Bool) : List OutboxRow :=
  updateById rows i (failedRow error permanent)

/-- A repository/publisher operation performed during a polling cycle, for
stating which effects a cycle has. -/
inductive OutboxOp where
  | fetchAndLock (limit : Nat) (lockerId : String)
  | publish (id : Nat)
  | markPublished (id : Nat)
  | markFailed (id : Nat) (error : String)
deriving DecidableEq, Repr

/-- The publisher collaborator: `publish(message)` succeeds or fails with an
opaque error text (`str(e)`). -/
def Publisher : Type := OutboxRow → Except String Unit

/-- The per-message body of `OutboxService._process_batch`'s loop:
`try: publish; mark_published  except: mark_failed(id, str(e))` — the
exception is caught per item, so the fold continues with the next message. -/
def processOne (publish : Publisher) (acc : List OutboxRow × List OutboxOp)
    (m : OutboxRow) : List OutboxRow × List OutboxOp :=
  match publish m with
  | .ok _ =>
    (mark_published acc.1 m.id, acc.2 ++ [.publish m.id, .markPublished m.id])
  | .error e =>
    (mark_failed acc.1 m.id e false, acc.2 ++ [.publish m.id, .markFailed m.id e])

/-- Method `OutboxService._process_batch`: if no publisher is configured, return at
once (no repository call); otherwise fetch-and-lock a batch and process each
claimed message, catching per-message failures.  Returns the store after the
cycle and the trace of operations the cycle performed. -/
def process_batch (publisher : Option Publisher) (batchSize : Nat)
    (lockerId : String) (now : Nat) (rows : List OutboxRow) :
    List OutboxRow × List OutboxOp :=
  match publisher with
  | none => (rows, [])
  | some publish =>
    let fetched := fetch_and_lock_pending batchSize lockerId now rows
    fetched.1.foldl (processOne publish)
      (fetched.2, [OutboxOp.fetchAndLock batchSize lockerId])

/-- The stored row an individual claimed message ends the cycle with,
determined by that message's own publish outcome alone. -/
def publishOutcome (publish : Publisher) (m : OutboxRow) : OutboxRow :=
  match publish m with
  | .ok _ => publishedRow m
  | .error e => failedRow e false m

/-- How a claimed message's publish outcome updates the stored row with its
id (what `processOne` does to the store at that id). -/
def outcomeUpdate (publish : Publisher) (m : OutboxRow) : OutboxRow → OutboxRow :=
  fun r =>
    match publish m with
    | .ok _ => publishedRow r
    | .error e => failedRow e false r

/-- Store lookup by row id (`find?` on the row list). -/
def findById (rows : List OutboxRow) (i : Nat) : Option OutboxRow :=
  rows.find? fun m => m.id == i

/-- One claim request: the `limit`, the claiming worker and the instant of
the call. -/
structure ClaimRequest where
  limit : Nat
  lockerId : String
  now : Nat
deriving DecidableEq, Repr

/-- A sequence of `fetch_and_lock_pending` calls against the same store (the
serialization of N concurrent callers: each call is atomic at the store, so
any interleaving is some such sequence).  Returns the id lists handed to the
callers and the final store. -/
def claimMany : List ClaimRequest → List OutboxRow → List (List Nat) × List OutboxRow
  | [], rows => ([], rows)
  | r :: rest, rows =>
    let step := fetch_and_lock_pending r.limit r.lockerId r.now rows
    let restOut := claimMany rest step.2
    (step.1.map (·.id) :: restOut.1, restOut.2)

end OutboxStore

section InboxModel

/-- The inbox message store: the durable rows plus the fresh-id counter that
stands in for `uuid4` row-id generation. -/
structure InboxStore where
  rows : List InboxMessage
  nextId : Nat
deriving DecidableEq, Repr

/-- The natural deduplication key comparison: a stored row matches an inbound
identity iff its (`messageId`, `source`) pair equals it. -/
def keyMatch (messageId source : String) (r : InboxMessage) : Bool :=
  r.messageId == messageId && r.source == source

/-- Result type `RecordInboxMessageResult` from
`event_forge_inbox_outbox/repositories/interfaces.py`: the stored (or
pre-existing) message and the duplicate flag. -/
structure RecordInboxMessageResult where
  message : InboxMessage
  isDuplicate : Bool
deriving DecidableEq, Repr

/-- The row `record` inserts on first-ever ingestion of a key: fresh id,
`status = received`, no processing timestamp, no error. -/
def freshInboxMessage (st : InboxStore) (dto : CreateInboxMessageDto)
    (now : Nat) : InboxMessage :=
  { id := st.nextId, messageId := dto.messageId, source := dto.source,
    eventType := dto.eventType, payload := dto.payload,
    status := .received, processedAt := none, errorMessage := none,
    createdAt := now }

namespace Inbox

/-- Modelled from the spec: `IInboxRepository.record(dto)` (§4.2): attempts
to insert a new row keyed by (`messageId`, `source`); if the key already
exists, returns the existing row with `isDuplicate = true` and performs no
further mutation. -/
def record (st : InboxStore) (dto : CreateInboxMessageDto) (now : Nat) :
    RecordInboxMessageResult × InboxStore :=
  match st.rows.find? (keyMatch dto.messageId dto.source) with
  | some r => ({ message := r, isDuplicate := true }, st)
  | none =>
    ({ message := freshInboxMessage st dto now, isDuplicate := false },
     { rows := st.rows ++ [freshInboxMessage st dto now], nextId := st.nextId + 1 })

/-- Single-row conditional update by id on inbox rows. -/
def updateById (rows : List InboxMessage) (i : Nat)
    (f : InboxMessage → InboxMessage) : List InboxMessage :=
  rows.map fun r => if r.id = i then f r else r

/-- Modelled from the spec: `IInboxRepository.mark_processing(id)`. -/
def mark_processing (st : InboxStore) (i : Nat) : InboxStore :=
  { st with rows := updateById st.rows i fun r => { r with status := .processing } }

/-- Modelled from the spec: `IInboxRepository.mark_processed(id)` (also sets
the processing timestamp). -/
def mark_processed (st : InboxStore) (i : Nat) (now : Nat) : InboxStore :=
  { st with rows := (updateById st.rows i
      (fun r => { r with status := .processed, processedAt := some now })) }

/-- Modelled from the spec: `IInboxRepository.mark_failed(id, error)`. -/
def mark_failed (st : InboxStore) (i : Nat) (error : String) : InboxStore :=
  { st with rows := (updateById st.rows i
      (fun r => { r with status := .failed, errorMessage := some error })) }

/-- Inbox store lookup by row id. -/
def findById (st : InboxStore) (i : Nat) : Option InboxMessage :=
  st.rows.find? fun r => r.id == i

end Inbox

/-- Store lookup by dedup key (first matching row). -/
def findByKey (st : InboxStore) (messageId source : String) : Option InboxMessage :=
  st.rows.find? (keyMatch messageId source)

/-- Number of stored rows matching a dedup key. -/
def countByKey (st : InboxStore) (messageId source : String) : Nat :=
  st.rows.countP fun r => keyMatch messageId source r

/-- Type `MessageHandler` from `inbox_service.py`: an async callable on the
message; a raised exception is an `error` carrying `str(e)`. -/
def MessageHandler : Type := InboxMessage → Except String Unit

/-- Method `InboxService.register_handler(event_type, handler)`: appends the handler
to the registry.  The registry is embedded as the registration log of
(`event_type`, handler) pairs; the handlers of one event type, in
registration order, are recovered by `handlersFor`. -/
def register_handler (reg : List (String × MessageHandler)) (eventType : String)
    (handler : MessageHandler) : List (String × MessageHandler) :=
  reg ++ [(eventType, handler)]

/-- The ordered handler list for an event type
(`self._handlers.get(event_type, [])`). -/
def handlersFor (reg : List (String × MessageHandler)) (eventType : String) :
    List MessageHandler :=
  (reg.filter fun p => p.1 == eventType).map (·.2)

/-- A repository or handler operation performed during one
`process_message` call. -/
inductive InboxOp where
  | record (messageId source : String)
  | invoke (eventType : String) (idx : Nat)
  | markProcessing (id : Nat)
  | markProcessed (id : Nat)
  | markFailed (id : Nat) (error : String)
deriving DecidableEq, Repr

/-- The invocation events for handlers `start, start+1, …, start+count-1` of
an event type, in order. -/
def invokeOps (eventType : String) (start : Nat) : Nat → List InboxOp
  | 0 => []
  | n + 1 => .invoke eventType start :: invokeOps eventType (start + 1) n

/-- The `for handler in handlers: await handler(message)` loop: runs the
handlers in order, stopping at the first failure; returns the outcome and the
invocation events (handlers are numbered from `start`). -/
def runHandlersFrom (eventType : String) (m : InboxMessage) (start : Nat) :
    List MessageHandler → Except String Unit × List InboxOp
  | [] => (.ok (), [])
  | h :: rest =>
    match h m with
    | .ok _ =>
      let restOut := runHandlersFrom eventType m (start + 1) rest
      (restOut.1, .invoke eventType start :: restOut.2)
    | .error e => (.error e, [.invoke eventType start])

/-- Method `InboxService.process_message(dto)`: records the message; on duplicate
raises `DuplicateMessageError(message_id, source)`; with no handlers marks it
processed immediately; otherwise marks it processing, runs the handlers in
order, and marks it processed on success or failed (with the captured error
text, which is re-raised) on the first handler failure.  Returns the
outcome, the store after the call, and the trace of operations performed. -/
def process_message (reg : List (String × MessageHandler)) (st : InboxStore)
    (dto : CreateInboxMessageDto) (now : Nat) :
    Except InboxError InboxMessage × InboxStore × List InboxOp :=
  let res := Inbox.record st dto now
  if res.1.isDuplicate then
    (.error (.duplicate dto.messageId dto.source), res.2,
     [InboxOp.record dto.messageId dto.source])
  else
    let m := res.1.message
    let handlers := handlersFor reg dto.eventType
    if handlers.isEmpty then
      (.ok m, Inbox.mark_processed res.2 m.id now,
       [InboxOp.record dto.messageId dto.source, InboxOp.markProcessed m.id])
    else
      let run := runHandlersFrom dto.eventType m 0 handlers
      match run.1 with
      | .ok _ =>
        (.ok m, Inbox.mark_processed (Inbox.mark_processing res.2 m.id) m.id now,
         [InboxOp.record dto.messageId dto.source, InboxOp.markProcessing m.id]
           ++ run.2 ++ [InboxOp.markProcessed m.id])
      | .error e =>
        (.error (.handlerFailure e), Inbox.mark_failed (Inbox.mark_processing res.2 m.id) m.id e,
         [InboxOp.record dto.messageId dto.source, InboxOp.markProcessing m.id]
           ++ run.2 ++ [InboxOp.markFailed m.id e])

end InboxModel

section SampleInputs

/-- A well-formedness invariant the store maintains by construction: every
stored row's id is below the fresh-id counter (so the next insert gets an
unused id). -/
def InboxStore.wf (st : InboxStore) : Prop := ∀ r ∈ st.rows, r.id < st.nextId

/-- A sample outbox row with the given id, status and retry counters (the
business fields are fixed sample data; `createdAt := i` keeps creation
order aligned with the list order). -/
def sampleRow (i : Nat) (st : SpecOutboxStatus) (retry maxR : Nat) : OutboxRow :=
  { id := i, aggregateType := "User", aggregateId := "user-1",
    eventType := "user.created", payload := "p", metadata := none,
    status := st, retryCount := retry, maxRetries := maxR,
    errorMessage := none, scheduledAt := none, lockedBy := none,
    lockedAt := none, createdAt := i }

/-- A publisher whose `publish` always raises (error text `"boom"`). -/
def alwaysFailPublisher : Publisher := fun _ => .error "boom"

/-- A publisher that fails on row id 1 and succeeds elsewhere. -/
def failOnOnePublisher : Publisher := fun m =>
  if m.id = 1 then .error "boom" else .ok ()

/-- The outbox store after one polling cycle of an always-failing publisher
over a single pending row with `maxRetries = 2`. -/
def wOutboxAfterOne : List OutboxRow :=
  (process_batch (some alwaysFailPublisher) 10 "osvc" 0 [sampleRow 0 .pending 0 2]).1

/-- The row the second polling cycle claims in that scenario: one recorded
failure, relocked by the worker. -/
def wClaimedSecond : OutboxRow :=
  { (sampleRow 0 .processing 1 2) with
    errorMessage := some "boom",
    lockedBy := some "osvc", lockedAt := some 0 }

/-- Three pending sample rows. -/
def wThreeRows : List OutboxRow :=
  [sampleRow 0 .pending 0 5, sampleRow 1 .pending 0 5, sampleRow 2 .pending 0 5]

/-- Two claim requests of limit 2 from different workers. -/
def wClaimReqs : List ClaimRequest :=
  [{ limit := 2, lockerId := "worker-A", now := 0 },
   { limit := 2, lockerId := "worker-B", now := 0 }]

/-- A sample inbound message identity. -/
def wDto : CreateInboxMessageDto :=
  { messageId := "m1", source := "s1", eventType := "order.placed", payload := "p" }

/-- The empty inbox store. -/
def wEmptyInbox : InboxStore := { rows := [], nextId := 0 }

/-- A handler that succeeds. -/
def okHandler : MessageHandler := fun _ => .ok ()

/-- A handler that raises (error text `"handler blew up"`). -/
def failHandler : MessageHandler := fun _ => .error "handler blew up"

/-- A registry with a succeeding then a failing handler for
`"order.placed"`. -/
def wRegFail : List (String × MessageHandler) :=
  register_handler (register_handler [] "order.placed" okHandler)
    "order.placed" failHandler

/-- A registry with one succeeding handler for `"order.placed"`. -/
def wRegOk : List (String × MessageHandler) :=
  register_handler [] "order.placed" okHandler

end SampleInputs

/-- C6: The claim says calling `stopLoop` when the loop is not running
(never started, or already stopped) completes without error.  In the code,
`stop_polling` with `_polling_task = None` executes `await self._polling_task`
— i.e. `await None` — which raises a `TypeError` that the
`except asyncio.CancelledError` handler does not catch; the call therefore
fails instead of completing.  This theorem evaluates the embedded method at
that failing input (a coordinator that was never started). -/
theorem stop_polling_never_started_raises :
    stop_polling { pollingTaskSet := false, shutdown := false } = .error .typeError := rfl

/-- C7 counterexample: the claim says the outbox status type includes an
explicit `processing` claim state (five states in all).  The enum declared in
`event_forge_inbox_outbox/models/enums.py` has no member whose value is
`"processing"` — it has exactly the four members `pending`, `published`,
`failed`, `failed_permanent`. -/
theorem outbox_status_no_processing_state :
    ¬ ∃ s : OutboxMessageStatus, s.value = "processing" := by decide

/-- C7 (amended): the outbox message status type has exactly the four states
`pending`, `published`, `failed` and `failed_permanent` (no `processing`
state, and the permanent-failure member is spelled `failed_permanent`, not
`permanently_failed`); every `OutboxMessage` carries a status drawn from this
set. -/
theorem outbox_status_is_four_states :
    (OutboxMessageStatus.members.map OutboxMessageStatus.value
        = ["pending", "published", "failed", "failed_permanent"])
      ∧ Fintype.card OutboxMessageStatus = 4
      ∧ ∀ m : OutboxMessage, m.status ∈ OutboxMessageStatus.members := by
  refine ⟨by decide, by decide, fun m => ?_⟩
  cases m.status <;> simp [OutboxMessageStatus.members]

/-! List helper lemmas -/

/-- Helper: `find?` commutes with a `map` whose function preserves the predicate. -/
theorem find?_map_eq {α : Type} (g : α → α) (p : α → Bool)
    (hg : ∀ m, p (g m) = p m) (l : List α) :
    (l.map g).find? p = (l.find? p).map g := by
  induction l with
  | nil => rfl
  | cons a l ih =>
    by_cases hpa : p a = true
    · rw [List.map_cons, List.find?_cons_of_pos _ (by rw [hg]; exact hpa),
        List.find?_cons_of_pos _ hpa, Option.map_some']
    · rw [List.map_cons, List.find?_cons_of_neg _ (by rw [hg]; exact hpa),
        List.find?_cons_of_neg _ hpa, ih]

/-- Helper: `countP` is unchanged by a `map` whose function preserves the predicate. -/
theorem countP_map_eq {α : Type} (g : α → α) (p : α → Bool)
    (hg : ∀ m, p (g m) = p m) (l : List α) :
    (l.map g).countP p = l.countP p := by
  induction l with
  | nil => rfl
  | cons a l ih => rw [List.map_cons, List.countP_cons, List.countP_cons, hg, ih]

/-- Pointwise-equal functions map lists equally. -/
theorem map_congr_fun {α β : Type} {f g : α → β} (h : ∀ a, f a = g a) :
    ∀ l : List α, l.map f = l.map g := by
  intro l
  induction l with
  | nil => rfl
  | cons a l ih => rw [List.map_cons, List.map_cons, h a, ih]

/-! Outbox store lemmas -/

/-- The claim transition preserves the row id. -/
theorem lockRow_id (w : String) (t : Nat) (m : OutboxRow) :
    (lockRow w t m).id = m.id := rfl

/-- The per-message update preserves the row id. -/
theorem outcomeUpdate_id (publish : Publisher) (m r : OutboxRow) :
    (outcomeUpdate publish m r).id = r.id := by
  unfold outcomeUpdate
  cases publish m <;> rfl

/-- Applying a claimed message's update to its own claimed row gives its
publish outcome. -/
theorem outcomeUpdate_self (publish : Publisher) (m : OutboxRow) :
    outcomeUpdate publish m m = publishOutcome publish m := by
  unfold outcomeUpdate publishOutcome
  cases publish m <;> rfl

/-- Lookup through a `map` by an id-preserving function. -/
theorem findById_map (g : OutboxRow → OutboxRow) (hg : ∀ m, (g m).id = m.id)
    (rows : List OutboxRow) (i : Nat) :
    findById (rows.map g) i = (findById rows i).map g :=
  find?_map_eq g _ (fun m => by simp [hg]) rows

/-- A row found by id has that id. -/
theorem findById_id {rows : List OutboxRow} {i : Nat} {m : OutboxRow}
    (h : findById rows i = some m) : m.id = i := by
  have := List.find?_some h
  simpa using this

/-- Lookup after a single-row update: only the updated id changes. -/
theorem findById_updateById (rows : List OutboxRow) (j : Nat)
    (f : OutboxRow → OutboxRow) (hf : ∀ m, (f m).id = m.id) (i : Nat) :
    findById (updateById rows j f) i
      = if i = j then (findById rows i).map f else findById rows i := by
  unfold updateById
  rw [findById_map _ (fun m => by by_cases h : m.id = j <;> simp [h, hf])]
  cases hfind : findById rows i with
  | none => simp
  | some m =>
    rw [Option.map_some', findById_id hfind]
    by_cases hij : i = j
    · simp [hij]
    · simp [hij]

/-- With no duplicate ids, lookup of a member's id finds that member. -/
theorem findById_of_nodup {rows : List OutboxRow}
    (hnd : (rows.map (·.id)).Nodup) {m : OutboxRow} (hm : m ∈ rows) :
    findById rows m.id = some m := by
  induction rows with
  | nil => cases hm
  | cons a l ih =>
    rw [List.map_cons, List.nodup_cons] at hnd
    rcases List.mem_cons.mp hm with rfl | hm'
    · exact List.find?_cons_of_pos _ (by simp)
    · unfold findById
      rw [List.find?_cons_of_neg]
      · exact ih hnd.2 hm'
      · simp only [beq_iff_eq]
        intro h
        exact hnd.1 (h ▸ List.mem_map_of_mem (·.id) hm')

/-- The selected rows form a sublist of the store. -/
theorem claimSelected_sublist (limit now : Nat) (rows : List OutboxRow) :
    (claimSelected limit now rows).Sublist rows :=
  (List.take_sublist _ _).trans (List.filter_sublist _)

/-- A selected row is a stored row and is eligible. -/
theorem claimSelected_spec {limit now : Nat} {rows : List OutboxRow}
    {m : OutboxRow} (hm : m ∈ claimSelected limit now rows) :
    m ∈ rows ∧ isClaimable now m = true := by
  have h1 : m ∈ rows.filter (isClaimable now) := List.mem_of_mem_take hm
  exact ⟨List.mem_of_mem_filter h1, List.of_mem_filter h1⟩

/-- With no duplicate store ids, the claimed ids of one batch are distinct. -/
theorem claimedIds_nodup (limit now : Nat) (rows : List OutboxRow)
    (hnd : (rows.map (·.id)).Nodup) : (claimedIds limit now rows).Nodup := by
  unfold claimedIds
  exact List.Nodup.sublist
    (List.Sublist.map (·.id) (claimSelected_sublist limit now rows)) hnd

/-- The claimed batch returned by `fetch_and_lock_pending`. -/
theorem fetch_fst (limit : Nat) (lockerId : String) (now : Nat)
    (rows : List OutboxRow) :
    (fetch_and_lock_pending limit lockerId now rows).1
      = (claimSelected limit now rows).map (lockRow lockerId now) := rfl

/-- The claimed batch's ids are the claimed ids. -/
theorem fetch_fst_ids (limit : Nat) (lockerId : String) (now : Nat)
    (rows : List OutboxRow) :
    (fetch_and_lock_pending limit lockerId now rows).1.map (·.id)
      = claimedIds limit now rows := by
  rw [fetch_fst, List.map_map]
  exact map_congr_fun (fun a => rfl) _

/-- Claiming does not change the stored id sequence. -/
theorem fetch_snd_ids (limit : Nat) (lockerId : String) (now : Nat)
    (rows : List OutboxRow) :
    (fetch_and_lock_pending limit lockerId now rows).2.map (·.id)
      = rows.map (·.id) := by
  simp only [fetch_and_lock_pending]
  rw [List.map_map]
  exact map_congr_fun
    (fun a => by
      by_cases h : a.id ∈ claimedIds limit now rows <;>
        simp [h, lockRow, Function.comp]) _

/-- After claiming, the store holds each claimed message as returned. -/
theorem fetch_find_claimed (limit : Nat) (lockerId : String) (now : Nat)
    (rows : List OutboxRow) (hnd : (rows.map (·.id)).Nodup) {m : OutboxRow}
    (hm : m ∈ (fetch_and_lock_pending limit lockerId now rows).1) :
    findById (fetch_and_lock_pending limit lockerId now rows).2 m.id = some m := by
  rw [fetch_fst] at hm
  obtain ⟨m0, hm0, rfl⟩ := List.mem_map.mp hm
  show findById (rows.map _) _ = _
  rw [findById_map _
    (fun a => by by_cases h : a.id ∈ claimedIds limit now rows <;> simp [h, lockRow])]
  rw [lockRow_id, findById_of_nodup hnd (claimSelected_spec hm0).1, Option.map_some']
  rw [if_pos (List.mem_map_of_mem (·.id) hm0 : m0.id ∈ claimedIds limit now rows)]

/-- The store component of one loop iteration is a single-row update at the
processed message's id. -/
theorem processOne_fst (publish : Publisher) (acc : List OutboxRow × List OutboxOp)
    (m : OutboxRow) :
    (processOne publish acc m).1 = updateById acc.1 m.id (outcomeUpdate publish m) := by
  unfold processOne outcomeUpdate mark_published mark_failed
  cases hp : publish m <;> rfl

/-- Ids absent from a batch are untouched by the batch fold. -/
theorem foldl_processOne_untouched (publish : Publisher) :
    ∀ (l : List OutboxRow) (acc : List OutboxRow × List OutboxOp) (i : Nat),
    i ∉ l.map (·.id) →
    findById (l.foldl (processOne publish) acc).1 i = findById acc.1 i := by
  intro l
  induction l with
  | nil => intro acc i _; rfl
  | cons a l ih =>
    intro acc i hi
    rw [List.map_cons, List.mem_cons] at hi
    push_neg at hi
    rw [List.foldl_cons, ih _ _ hi.2]
    rw [processOne_fst, findById_updateById _ _ _ (outcomeUpdate_id publish a), if_neg hi.1]

/-- The batch fold's effect at a batch member's id is that member's own
update, applied once. -/
theorem foldl_processOne_hit (publish : Publisher) (l : List OutboxRow)
    (acc : List OutboxRow × List OutboxOp) (m : OutboxRow)
    (hm : m ∈ l) (hnd : (l.map (·.id)).Nodup) :
    findById (l.foldl (processOne publish) acc).1 m.id
      = (findById acc.1 m.id).map (outcomeUpdate publish m) := by
  obtain ⟨l1, l2, rfl⟩ := List.append_of_mem hm
  rw [List.map_append, List.map_cons] at hnd
  have h2 : m.id ∉ l2.map (·.id) :=
    (List.nodup_cons.mp (List.nodup_append.mp hnd).2.1).1
  have h1 : m.id ∉ l1.map (·.id) := fun hmem =>
    (List.nodup_append.mp hnd).2.2 hmem (List.mem_cons_self _ _)
  rw [List.foldl_append, List.foldl_cons]
  rw [foldl_processOne_untouched publish l2 _ _ h2]
  rw [processOne_fst, findById_updateById _ _ _ (outcomeUpdate_id publish m), if_pos rfl]
  rw [foldl_processOne_untouched publish l1 _ _ h1]

/-- The ids of one claimed batch are distinct. -/
theorem batch_ids_nodup (batchSize : Nat) (lockerId : String) (now : Nat)
    (rows : List OutboxRow) (hnd : (rows.map (·.id)).Nodup) :
    ((fetch_and_lock_pending batchSize lockerId now rows).1.map (·.id)).Nodup := by
  rw [fetch_fst_ids]
  exact claimedIds_nodup _ _ _ hnd

/-- C1: For every outbox message in a claimed batch whose publish call fails
with error text `e`, the cycle leaves the stored row for that message with
the error text recorded, `retryCount` incremented, `status =
permanently_failed` when the resulting count reaches `maxRetries` and
`status = failed` otherwise, and the lock fields cleared. -/
theorem process_batch_publish_failure (publish : Publisher) (batchSize : Nat)
    (lockerId : String) (now : Nat) (rows : List OutboxRow)
    (hnd : (rows.map (·.id)).Nodup) (m : OutboxRow)
    (hm : m ∈ (fetch_and_lock_pending batchSize lockerId now rows).1)
    (e : String) (hfail : publish m = .error e) :
    findById (process_batch (some publish) batchSize lockerId now rows).1 m.id
      = some { m with
          retryCount := m.retryCount + 1,
          status := if m.maxRetries ≤ m.retryCount + 1
            then SpecOutboxStatus.permanentlyFailed else SpecOutboxStatus.failed,
          errorMessage := some e, lockedBy := none, lockedAt := none } := by
  simp only [process_batch]
  rw [foldl_processOne_hit publish _ _ m hm (batch_ids_nodup _ _ _ _ hnd)]
  rw [fetch_find_claimed _ _ _ _ hnd hm, Option.map_some']
  unfold outcomeUpdate
  rw [hfail]
  unfold failedRow
  simp

/-- C1 witness (the spec scenario): one pending message with `maxRetries = 2`
and an always-failing publisher; after the first cycle records one failure,
the second cycle claims the row again, and the claim theorem applied to that
second cycle yields `permanently_failed` with `retryCount = 2`. -/
theorem process_batch_publish_failure_witness :
    findById (process_batch (some alwaysFailPublisher) 10 "osvc" 0 wOutboxAfterOne).1 0
      = some { wClaimedSecond with
          retryCount := 2, status := SpecOutboxStatus.permanentlyFailed,
          errorMessage := some "boom", lockedBy := none, lockedAt := none } := by
  have h := process_batch_publish_failure alwaysFailPublisher 10 "osvc" 0
    wOutboxAfterOne (by decide) wClaimedSecond (by decide) "boom" rfl
  exact h.trans (by decide)

/-- C5: In one polling cycle over a claimed batch, each claimed message's
final stored row is decided by its own publish outcome alone (published on
success; the failure transition on failure), and every stored row outside
the claimed batch is left exactly unchanged — so one message's publish
failure neither prevents processing of its batch siblings nor alters any
other message's status. -/
theorem process_batch_isolation (publish : Publisher) (batchSize : Nat)
    (lockerId : String) (now : Nat) (rows : List OutboxRow)
    (hnd : (rows.map (·.id)).Nodup) :
    (∀ m ∈ (fetch_and_lock_pending batchSize lockerId now rows).1,
        findById (process_batch (some publish) batchSize lockerId now rows).1 m.id
          = some (publishOutcome publish m))
      ∧ ∀ b ∈ rows, b.id ∉ claimedIds batchSize now rows →
        findById (process_batch (some publish) batchSize lockerId now rows).1 b.id
          = some b := by
  constructor
  · intro m hm
    simp only [process_batch]
    rw [foldl_processOne_hit publish _ _ m hm (batch_ids_nodup _ _ _ _ hnd)]
    rw [fetch_find_claimed _ _ _ _ hnd hm, Option.map_some', outcomeUpdate_self]
  · intro b hb hbnot
    simp only [process_batch]
    rw [foldl_processOne_untouched publish _ _ _ (by rw [fetch_fst_ids]; exact hbnot)]
    show findById (rows.map _) b.id = some b
    rw [findById_map _
      (fun a => by
        by_cases h : a.id ∈ claimedIds batchSize now rows <;> simp [h, lockRow])]
    rw [findById_of_nodup hnd hb, Option.map_some', if_neg hbnot]

/-- C5 witness: three pending rows, batch size 2, a publisher that fails only
on row 1.  The claim theorem gives row 0 its own (successful) outcome even
though its batch sibling failed, and leaves the unclaimed row 2 unchanged. -/
theorem process_batch_isolation_witness :
    findById (process_batch (some failOnOnePublisher) 2 "w" 0 wThreeRows).1 0
        = some (publishOutcome failOnOnePublisher (lockRow "w" 0 (sampleRow 0 .pending 0 5)))
      ∧ findById (process_batch (some failOnOnePublisher) 2 "w" 0 wThreeRows).1 2
        = some (sampleRow 2 .pending 0 5) := by
  constructor
  · exact (process_batch_isolation failOnOnePublisher 2 "w" 0 wThreeRows (by decide)).1
      (lockRow "w" 0 (sampleRow 0 .pending 0 5)) (by decide)
  · exact (process_batch_isolation failOnOnePublisher 2 "w" 0 wThreeRows (by decide)).2
      (sampleRow 2 .pending 0 5) (by decide) (by decide)

/-- C9: When no publisher is configured, `_process_batch` returns before any
repository call: the polling cycle performs no operation (empty trace) and
leaves the outbox store exactly unchanged. -/
theorem process_batch_no_publisher (batchSize : Nat) (lockerId : String)
    (now : Nat) (rows : List OutboxRow) :
    process_batch none batchSize lockerId now rows = (rows, []) := rfl

/-- An eligible row is unlocked. -/
theorem isClaimable_lockedBy {now : Nat} {m : OutboxRow}
    (h : isClaimable now m = true) : m.lockedBy = none := by
  unfold isClaimable at h
  simp only [Bool.and_eq_true] at h
  exact Option.isNone_iff_eq_none.mp h.2

/-- Every id a claim hands out is stored locked afterwards. -/
theorem fetch_claimed_locked (limit : Nat) (lockerId : String) (now : Nat)
    (rows : List OutboxRow) (hnd : (rows.map (·.id)).Nodup) (i : Nat)
    (hi : i ∈ claimedIds limit now rows) :
    ∃ m, findById (fetch_and_lock_pending limit lockerId now rows).2 i = some m
      ∧ m.lockedBy.isSome := by
  unfold claimedIds at hi
  obtain ⟨m0, hm0, rfl⟩ := List.mem_map.mp hi
  refine ⟨lockRow lockerId now m0, ?_, rfl⟩
  have hmem : lockRow lockerId now m0
      ∈ (fetch_and_lock_pending limit lockerId now rows).1 := by
    rw [fetch_fst]
    exact List.mem_map_of_mem _ hm0
  have h := fetch_find_claimed limit lockerId now rows hnd hmem
  rw [lockRow_id] at h
  exact h

/-- A locked row is never handed out by a claim and is stored unchanged by
it. -/
theorem fetch_preserves_locked (limit : Nat) (lockerId : String) (now : Nat)
    (rows : List OutboxRow) (hnd : (rows.map (·.id)).Nodup) (i : Nat)
    (m : OutboxRow) (hfind : findById rows i = some m)
    (hlocked : m.lockedBy.isSome) :
    i ∉ claimedIds limit now rows
      ∧ findById (fetch_and_lock_pending limit lockerId now rows).2 i = some m := by
  have hmi : m.id = i := findById_id hfind
  have hnotin : i ∉ claimedIds limit now rows := by
    intro hi
    unfold claimedIds at hi
    obtain ⟨m0, hm0, hid⟩ := List.mem_map.mp hi
    have h1 : findById rows m0.id = some m0 :=
      findById_of_nodup hnd (claimSelected_spec hm0).1
    rw [hid, hfind] at h1
    injection h1 with h1
    rw [h1, isClaimable_lockedBy (claimSelected_spec hm0).2] at hlocked
    simp at hlocked
  refine ⟨hnotin, ?_⟩
  show findById (rows.map _) i = some m
  rw [findById_map _
    (fun a => by by_cases h : a.id ∈ claimedIds limit now rows <;> simp [h, lockRow])]
  rw [hfind, Option.map_some', if_neg (by rw [hmi]; exact hnotin)]

/-- Induction core for claim exclusivity: with distinct store ids and an
accumulator of already-claimed ids whose rows are all locked, the
accumulator extended by every further claim's output stays duplicate-free. -/
theorem claimMany_nodup_aux (reqs : List ClaimRequest) :
    ∀ (rows : List OutboxRow) (acc : List Nat),
    (rows.map (·.id)).Nodup → acc.Nodup →
    (∀ i ∈ acc, ∃ m, findById rows i = some m ∧ m.lockedBy.isSome) →
    (acc ++ (claimMany reqs rows).1.flatten).Nodup := by
  induction reqs with
  | nil =>
    intro rows acc _ haccnd _
    simpa [claimMany] using haccnd
  | cons r rest ih =>
    intro rows acc hnd haccnd hlocked
    have hids : (fetch_and_lock_pending r.limit r.lockerId r.now rows).1.map (·.id)
        = claimedIds r.limit r.now rows := fetch_fst_ids _ _ _ _
    have hdisj : ∀ a ∈ acc, a ∉ claimedIds r.limit r.now rows := by
      intro a ha
      obtain ⟨m, hfind, hl⟩ := hlocked a ha
      exact (fetch_preserves_locked r.limit r.lockerId r.now rows hnd a m hfind hl).1
    have hnd1 : (acc ++ (fetch_and_lock_pending r.limit r.lockerId r.now rows).1.map (·.id)).Nodup := by
      rw [hids]
      exact List.nodup_append.mpr
        ⟨haccnd, claimedIds_nodup _ _ _ hnd, fun {a} ha hb => hdisj a ha hb⟩
    have hlocked1 : ∀ i ∈ acc ++ (fetch_and_lock_pending r.limit r.lockerId r.now rows).1.map (·.id),
        ∃ m, findById (fetch_and_lock_pending r.limit r.lockerId r.now rows).2 i = some m
          ∧ m.lockedBy.isSome := by
      intro i hi
      rcases List.mem_append.mp hi with hi | hi
      · obtain ⟨m, hfind, hl⟩ := hlocked i hi
        exact ⟨m, (fetch_preserves_locked r.limit r.lockerId r.now rows hnd i m hfind hl).2, hl⟩
      · rw [hids] at hi
        exact fetch_claimed_locked r.limit r.lockerId r.now rows hnd i hi
    have hrec := ih (fetch_and_lock_pending r.limit r.lockerId r.now rows).2
      (acc ++ (fetch_and_lock_pending r.limit r.lockerId r.now rows).1.map (·.id))
      (by rw [fetch_snd_ids]; exact hnd) hnd1 hlocked1
    simp only [claimMany, List.flatten_cons]
    rw [← List.append_assoc]
    exact hrec

/-- C8: For any sequence of `fetch_and_lock_pending` calls against the same
store (the serialization of N concurrent `claimBatch` callers, each call
being atomic at the store), the union of the id lists handed to the callers
contains no duplicate: no message is delivered to two workers. -/
theorem claimMany_claim_exclusivity (reqs : List ClaimRequest)
    (rows : List OutboxRow) (hnd : (rows.map (·.id)).Nodup) :
    ((claimMany reqs rows).1.flatten).Nodup := by
  have h := claimMany_nodup_aux reqs rows [] hnd List.nodup_nil
    (by intro i hi; cases hi)
  simpa using h

/-- C8 witness: three pending rows, two claimers asking for two rows each;
the first is handed ids `[0, 1]`, the second only `[2]`, and the claim
theorem shows the combined hand-out is duplicate-free. -/
theorem claimMany_claim_exclusivity_witness :
    (claimMany wClaimReqs wThreeRows).1 = [[0, 1], [2]]
      ∧ ((claimMany wClaimReqs wThreeRows).1.flatten).Nodup :=
  ⟨by decide, claimMany_claim_exclusivity wClaimReqs wThreeRows (by decide)⟩

/-! Inbox store lemmas -/

/-- If nothing in a list satisfies `p` (count zero), `find?` fails. -/
theorem find?_eq_none_of_countP_zero {α : Type} {p : α → Bool} {l : List α}
    (h : l.countP p = 0) : l.find? p = none :=
  List.find?_eq_none.mpr (List.countP_eq_zero.mp h)

/-- Helper: `find?` skips a prefix with no match. -/
theorem find?_append_none {α : Type} {p : α → Bool} {l1 : List α}
    (h : l1.find? p = none) (l2 : List α) :
    (l1 ++ l2).find? p = l2.find? p := by
  induction l1 with
  | nil => rfl
  | cons a l ih =>
    have hpa : ¬ p a = true := List.find?_eq_none.mp h a (List.mem_cons_self a l)
    rw [List.cons_append, List.find?_cons_of_neg _ hpa]
    exact ih (List.find?_eq_none.mpr fun x hx =>
      List.find?_eq_none.mp h x (List.mem_cons_of_mem a hx))

/-- A non-empty list's `isEmpty` is `false`. -/
theorem isEmpty_false_of_ne_nil {α : Type} {l : List α} (h : l ≠ []) :
    l.isEmpty = false := by
  cases l with
  | nil => exact absurd rfl h
  | cons a t => rfl

/-- On a key that is not yet stored, `record` inserts the fresh row. -/
theorem record_fresh {st : InboxStore} {dto : CreateInboxMessageDto} (now : Nat)
    (h : countByKey st dto.messageId dto.source = 0) :
    Inbox.record st dto now
      = ({ message := freshInboxMessage st dto now, isDuplicate := false },
         { rows := st.rows ++ [freshInboxMessage st dto now],
           nextId := st.nextId + 1 }) := by
  unfold Inbox.record
  rw [find?_eq_none_of_countP_zero h]

/-- On a key already stored, `record` returns the stored row marked duplicate
and leaves the store unchanged. -/
theorem record_dup {st : InboxStore} {dto : CreateInboxMessageDto} (now : Nat)
    {r : InboxMessage}
    (h : st.rows.find? (keyMatch dto.messageId dto.source) = some r) :
    Inbox.record st dto now = ({ message := r, isDuplicate := true }, st) := by
  unfold Inbox.record
  rw [h]

/-- A single-row update by an id whose function keeps the dedup key does not
change a key's row count. -/
theorem countP_keyMatch_updateById (rows : List InboxMessage) (i : Nat)
    (f : InboxMessage → InboxMessage)
    (hf : ∀ r, (f r).messageId = r.messageId ∧ (f r).source = r.source)
    (mid src : String) :
    (Inbox.updateById rows i f).countP (fun r => keyMatch mid src r)
      = rows.countP (fun r => keyMatch mid src r) := by
  unfold Inbox.updateById
  exact countP_map_eq _ _
    (fun r => by by_cases h : r.id = i <;> simp [h, keyMatch, (hf r).1, (hf r).2]) rows

/-- Two single-row updates at the same id compose. -/
theorem inbox_updateById_updateById (rows : List InboxMessage) (i : Nat)
    (f g : InboxMessage → InboxMessage) (hf : ∀ r, (f r).id = r.id) :
    Inbox.updateById (Inbox.updateById rows i f) i g
      = Inbox.updateById rows i (fun r => g (f r)) := by
  unfold Inbox.updateById
  rw [List.map_map]
  exact map_congr_fun
    (fun r => by
      by_cases h : r.id = i
      · simp [Function.comp, h, hf]
      · simp [Function.comp, h]) _

/-- Looking up the freshly appended row after a single-row update at its id
finds the updated row (existing rows all carry smaller ids). -/
theorem inbox_find_append_update (st : InboxStore) (m : InboxMessage)
    (hwf : st.wf) (hm : m.id = st.nextId)
    (f : InboxMessage → InboxMessage) (hf : ∀ r, (f r).id = r.id) :
    (Inbox.updateById (st.rows ++ [m]) m.id f).find? (fun r => r.id == m.id)
      = some (f m) := by
  unfold Inbox.updateById
  rw [List.map_append]
  have hnone : (st.rows.map fun r => if r.id = m.id then f r else r).find?
      (fun r => r.id == m.id) = none := by
    rw [List.find?_eq_none]
    intro x hx
    obtain ⟨r, hr, rfl⟩ := List.mem_map.mp hx
    have hne : r.id ≠ m.id := by
      rw [hm]
      exact Nat.ne_of_lt (hwf r hr)
    rw [if_neg hne]
    simp [hne]
  rw [find?_append_none hnone]
  show ((if m.id = m.id then f m else m) :: []).find? _ = _
  rw [if_pos rfl]
  exact List.find?_cons_of_pos _ (by simp [hf])

/-- Running handlers that all succeed succeeds and invokes each one in
order. -/
theorem runHandlersFrom_ok (eventType : String) (m : InboxMessage) :
    ∀ (hs : List MessageHandler) (start : Nat),
    (∀ h ∈ hs, h m = .ok ()) →
    runHandlersFrom eventType m start hs
      = (.ok (), invokeOps eventType start hs.length) := by
  intro hs
  induction hs with
  | nil => intro start _; rfl
  | cons h t ih =>
    intro start hall
    have hh : h m = .ok () := hall h (List.mem_cons_self _ _)
    simp only [runHandlersFrom, hh]
    rw [ih (start + 1) (fun g hg => hall g (List.mem_cons_of_mem _ hg))]
    rfl

/-- Running handlers where the first failure sits after a succeeding prefix
stops at that failure: exactly the prefix and the failing handler are
invoked, and the remaining handlers are not. -/
theorem runHandlersFrom_fail (eventType : String) (m : InboxMessage)
    (e : String) (fh : MessageHandler) (post : List MessageHandler) :
    ∀ (pre : List MessageHandler) (start : Nat),
    (∀ g ∈ pre, g m = .ok ()) → fh m = .error e →
    runHandlersFrom eventType m start (pre ++ fh :: post)
      = (.error e, invokeOps eventType start (pre.length + 1)) := by
  intro pre
  induction pre with
  | nil =>
    intro start _ hfh
    simp only [List.nil_append, runHandlersFrom, hfh]
    rfl
  | cons g t ih =>
    intro start hall hfh
    have hg : g m = .ok () := hall g (List.mem_cons_self _ _)
    simp only [List.cons_append, runHandlersFrom, hg, List.append_eq]
    rw [ih (start + 1) (fun x hx => hall x (List.mem_cons_of_mem _ hx)) hfh]
    rfl

/-- Every event the handler loop emits is a handler invocation. -/
theorem runHandlersFrom_trace (eventType : String) (m : InboxMessage) :
    ∀ (hs : List MessageHandler) (start : Nat) (op : InboxOp),
    op ∈ (runHandlersFrom eventType m start hs).2 →
    ∃ k, op = .invoke eventType k := by
  intro hs
  induction hs with
  | nil =>
    intro start op hop
    simp [runHandlersFrom] at hop
  | cons h t ih =>
    intro start op hop
    cases hh : h m with
    | ok v =>
      simp only [runHandlersFrom, hh] at hop
      rcases List.mem_cons.mp hop with rfl | hop
      · exact ⟨start, rfl⟩
      · exact ih (start + 1) op hop
    | error e =>
      simp only [runHandlersFrom, hh] at hop
      rcases List.mem_cons.mp hop with rfl | hop
      · exact ⟨start, rfl⟩
      · simp at hop

/-- C4: A non-duplicate `process_message` call whose event type has zero
registered handlers returns the recorded message marked processed
immediately: the trace is exactly record-then-mark-processed, no handler is
invoked, the message is never marked processing, and the stored row ends
`processed`. -/
theorem process_message_no_handlers (reg : List (String × MessageHandler))
    (st : InboxStore) (dto : CreateInboxMessageDto) (now : Nat)
    (hwf : st.wf) (hfresh : countByKey st dto.messageId dto.source = 0)
    (hnone : handlersFor reg dto.eventType = []) :
    (process_message reg st dto now).1 = .ok (freshInboxMessage st dto now)
      ∧ (process_message reg st dto now).2.2
        = [InboxOp.record dto.messageId dto.source,
           InboxOp.markProcessed (freshInboxMessage st dto now).id]
      ∧ (∀ et k, InboxOp.invoke et k ∉ (process_message reg st dto now).2.2)
      ∧ InboxOp.markProcessing (freshInboxMessage st dto now).id
          ∉ (process_message reg st dto now).2.2
      ∧ Inbox.findById (process_message reg st dto now).2.1
          (freshInboxMessage st dto now).id
        = some { freshInboxMessage st dto now with
            status := .processed, processedAt := some now } := by
  have hpm : process_message reg st dto now
      = (.ok (freshInboxMessage st dto now),
         Inbox.mark_processed
           { rows := st.rows ++ [freshInboxMessage st dto now],
             nextId := st.nextId + 1 }
           (freshInboxMessage st dto now).id now,
         [InboxOp.record dto.messageId dto.source,
          InboxOp.markProcessed (freshInboxMessage st dto now).id]) := by
    simp [process_message, record_fresh now hfresh, hnone]
  refine ⟨by rw [hpm], by rw [hpm], ?_, ?_, ?_⟩
  · intro et k
    rw [hpm]
    simp
  · rw [hpm]
    simp
  · rw [hpm]
    show (Inbox.updateById (st.rows ++ [freshInboxMessage st dto now]) _ _).find? _ = _
    exact inbox_find_append_update st (freshInboxMessage st dto now) hwf rfl _
      (fun r => rfl)

/-- C4 witness: an empty registry and empty store; the call yields the fresh
message and the two-step trace. -/
theorem process_message_no_handlers_witness :
    (process_message [] wEmptyInbox wDto 3).1
        = .ok (freshInboxMessage wEmptyInbox wDto 3)
      ∧ (process_message [] wEmptyInbox wDto 3).2.2
        = [InboxOp.record "m1" "s1", InboxOp.markProcessed 0] := by
  have h := process_message_no_handlers [] wEmptyInbox wDto 3
    (by intro r hr; cases hr) (by decide) rfl
  exact ⟨h.1, h.2.1⟩

/-- C3: A non-duplicate `process_message` call with at least one registered
handler first marks the message processing, then invokes the handlers of the
event type in registration order.  If every handler succeeds the message is
marked processed and returned; the first handler failure aborts the
remaining handlers (exactly the succeeding prefix and the failing handler
are invoked), marks the message failed with the captured error text, and
propagates the failure to the caller. -/
theorem process_message_handler_dispatch (reg : List (String × MessageHandler))
    (st : InboxStore) (dto : CreateInboxMessageDto) (now : Nat)
    (hwf : st.wf) (hfresh : countByKey st dto.messageId dto.source = 0)
    (hne : handlersFor reg dto.eventType ≠ []) :
    ((∀ h ∈ handlersFor reg dto.eventType,
        h (freshInboxMessage st dto now) = .ok ()) →
      (process_message reg st dto now).1 = .ok (freshInboxMessage st dto now)
      ∧ (process_message reg st dto now).2.2
        = [InboxOp.record dto.messageId dto.source,
           InboxOp.markProcessing (freshInboxMessage st dto now).id]
          ++ invokeOps dto.eventType 0 (handlersFor reg dto.eventType).length
          ++ [InboxOp.markProcessed (freshInboxMessage st dto now).id]
      ∧ Inbox.findById (process_message reg st dto now).2.1
          (freshInboxMessage st dto now).id
        = some { freshInboxMessage st dto now with
            status := .processed, processedAt := some now })
    ∧ ∀ (pre : List MessageHandler) (fh : MessageHandler)
        (post : List MessageHandler) (e : String),
      handlersFor reg dto.eventType = pre ++ fh :: post →
      (∀ g ∈ pre, g (freshInboxMessage st dto now) = .ok ()) →
      fh (freshInboxMessage st dto now) = .error e →
      (process_message reg st dto now).1 = .error (.handlerFailure e)
      ∧ (process_message reg st dto now).2.2
        = [InboxOp.record dto.messageId dto.source,
           InboxOp.markProcessing (freshInboxMessage st dto now).id]
          ++ invokeOps dto.eventType 0 (pre.length + 1)
          ++ [InboxOp.markFailed (freshInboxMessage st dto now).id e]
      ∧ Inbox.findById (process_message reg st dto now).2.1
          (freshInboxMessage st dto now).id
        = some { freshInboxMessage st dto now with
            status := .failed, errorMessage := some e } := by
  have hie := isEmpty_false_of_ne_nil hne
  constructor
  · intro hall
    have hrun := runHandlersFrom_ok dto.eventType (freshInboxMessage st dto now)
      (handlersFor reg dto.eventType) 0 hall
    have hpm : process_message reg st dto now
        = (.ok (freshInboxMessage st dto now),
           Inbox.mark_processed
             (Inbox.mark_processing
               { rows := st.rows ++ [freshInboxMessage st dto now],
                 nextId := st.nextId + 1 }
               (freshInboxMessage st dto now).id)
             (freshInboxMessage st dto now).id now,
           [InboxOp.record dto.messageId dto.source,
            InboxOp.markProcessing (freshInboxMessage st dto now).id]
             ++ invokeOps dto.eventType 0 (handlersFor reg dto.eventType).length
             ++ [InboxOp.markProcessed (freshInboxMessage st dto now).id]) := by
      simp [process_message, record_fresh now hfresh, hie, hrun]
    refine ⟨by rw [hpm], by rw [hpm], ?_⟩
    rw [hpm]
    show (Inbox.updateById (Inbox.updateById
        (st.rows ++ [freshInboxMessage st dto now]) _ _) _ _).find? _ = _
    rw [inbox_updateById_updateById]
    · exact inbox_find_append_update st (freshInboxMessage st dto now) hwf rfl _
        (fun r => rfl)
    · exact fun r => rfl
  · intro pre fh post e hdec hpre hfh
    have hrun := runHandlersFrom_fail dto.eventType (freshInboxMessage st dto now)
      e fh post pre 0 hpre hfh
    rw [← hdec] at hrun
    have hpm : process_message reg st dto now
        = (.error (.handlerFailure e),
           Inbox.mark_failed
             (Inbox.mark_processing
               { rows := st.rows ++ [freshInboxMessage st dto now],
                 nextId := st.nextId + 1 }
               (freshInboxMessage st dto now).id)
             (freshInboxMessage st dto now).id e,
           [InboxOp.record dto.messageId dto.source,
            InboxOp.markProcessing (freshInboxMessage st dto now).id]
             ++ invokeOps dto.eventType 0 (pre.length + 1)
             ++ [InboxOp.markFailed (freshInboxMessage st dto now).id e]) := by
      simp [process_message, record_fresh now hfresh, hie, hrun]
    refine ⟨by rw [hpm], by rw [hpm], ?_⟩
    rw [hpm]
    show (Inbox.updateById (Inbox.updateById
        (st.rows ++ [freshInboxMessage st dto now]) _ _) _ _).find? _ = _
    rw [inbox_updateById_updateById]
    · exact inbox_find_append_update st (freshInboxMessage st dto now) hwf rfl _
        (fun r => rfl)
    · exact fun r => rfl

/-- C3 witness: a registry with a succeeding then a failing handler for the
event type; the claim theorem's failure case applied with prefix
`[okHandler]` gives the propagated handler failure. -/
theorem process_message_handler_dispatch_witness :
    (process_message wRegFail wEmptyInbox wDto 7).1
      = .error (.handlerFailure "handler blew up") := by
  have h := (process_message_handler_dispatch wRegFail wEmptyInbox wDto 7
      (by intro r hr; cases hr) (by decide)
      (List.cons_ne_nil _ _)).2
    [okHandler] failHandler [] "handler blew up" rfl
    (by
      intro g hg
      rcases List.mem_cons.mp hg with rfl | hg
      · rfl
      · cases hg)
    rfl
  exact h.1

/-- Op `mark_processing` keeps every dedup key's row count. -/
theorem countByKey_mark_processing (st : InboxStore) (i : Nat) (mid src : String) :
    countByKey (Inbox.mark_processing st i) mid src = countByKey st mid src := by
  unfold Inbox.mark_processing countByKey
  refine countP_keyMatch_updateById st.rows i _ ?_ mid src
  exact fun r => ⟨rfl, rfl⟩

/-- Op `mark_processed` keeps every dedup key's row count. -/
theorem countByKey_mark_processed (st : InboxStore) (i now : Nat) (mid src : String) :
    countByKey (Inbox.mark_processed st i now) mid src = countByKey st mid src := by
  unfold Inbox.mark_processed countByKey
  refine countP_keyMatch_updateById st.rows i _ ?_ mid src
  exact fun r => ⟨rfl, rfl⟩

/-- Op `mark_failed` keeps every dedup key's row count. -/
theorem countByKey_mark_failed (st : InboxStore) (i : Nat) (e mid src : String) :
    countByKey (Inbox.mark_failed st i e) mid src = countByKey st mid src := by
  unfold Inbox.mark_failed countByKey
  refine countP_keyMatch_updateById st.rows i _ ?_ mid src
  exact fun r => ⟨rfl, rfl⟩

/-- The store a non-duplicate `process_message` call leaves behind is the
recorded store with the fresh row marked by one of the three exit paths. -/
theorem process_message_store_shape (reg : List (String × MessageHandler))
    (st : InboxStore) (dto : CreateInboxMessageDto) (now : Nat)
    (hfresh : countByKey st dto.messageId dto.source = 0) :
    (process_message reg st dto now).2.1
        = Inbox.mark_processed
            { rows := st.rows ++ [freshInboxMessage st dto now],
              nextId := st.nextId + 1 }
            (freshInboxMessage st dto now).id now
      ∨ (process_message reg st dto now).2.1
        = Inbox.mark_processed
            (Inbox.mark_processing
              { rows := st.rows ++ [freshInboxMessage st dto now],
                nextId := st.nextId + 1 }
              (freshInboxMessage st dto now).id)
            (freshInboxMessage st dto now).id now
      ∨ ∃ e, (process_message reg st dto now).2.1
        = Inbox.mark_failed
            (Inbox.mark_processing
              { rows := st.rows ++ [freshInboxMessage st dto now],
                nextId := st.nextId + 1 }
              (freshInboxMessage st dto now).id)
            (freshInboxMessage st dto now).id e := by
  by_cases he : (handlersFor reg dto.eventType).isEmpty = true
  · left
    simp [process_message, record_fresh now hfresh, he]
  · cases hrun : (runHandlersFrom dto.eventType (freshInboxMessage st dto now) 0
        (handlersFor reg dto.eventType)).1 with
    | ok v =>
      right; left
      simp [process_message, record_fresh now hfresh, he, hrun]
    | error e =>
      right; right
      exact ⟨e, by simp [process_message, record_fresh now hfresh, he, hrun]⟩

/-- A non-duplicate `process_message` call leaves exactly one row with the
call's dedup key. -/
theorem process_message_adds_one (reg : List (String × MessageHandler))
    (st : InboxStore) (dto : CreateInboxMessageDto) (now : Nat)
    (hfresh : countByKey st dto.messageId dto.source = 0) :
    countByKey (process_message reg st dto now).2.1 dto.messageId dto.source = 1 := by
  have hbase : countByKey
      { rows := st.rows ++ [freshInboxMessage st dto now], nextId := st.nextId + 1 }
      dto.messageId dto.source = 1 := by
    unfold countByKey at hfresh ⊢
    rw [List.countP_append, hfresh]
    simp [keyMatch, freshInboxMessage]
  rcases process_message_store_shape reg st dto now hfresh with h | h | ⟨e, h⟩
  · rw [h, countByKey_mark_processed]
    exact hbase
  · rw [h, countByKey_mark_processed, countByKey_mark_processing]
    exact hbase
  · rw [h, countByKey_mark_failed, countByKey_mark_processing]
    exact hbase

/-- If a key's row count is one, lookup by that key succeeds. -/
theorem findByKey_of_count_one {st : InboxStore} {mid src : String}
    (h : countByKey st mid src = 1) :
    ∃ r, findByKey st mid src = some r := by
  have hpos : 0 < st.rows.countP (fun r => keyMatch mid src r) := by
    unfold countByKey at h
    omega
  obtain ⟨a, ha, hpa⟩ := List.countP_pos_iff.mp hpos
  cases hf : findByKey st mid src with
  | some r => exact ⟨r, rfl⟩
  | none =>
    exact absurd hpa (List.find?_eq_none.mp hf a ha)

/-- C2: After a first `process_message` call on a fresh (`messageId`,
`source`) pair, a second call with the same pair raises
`DuplicateMessageError` carrying that `messageId` and `source`, leaves the
store exactly as the first call left it, exactly one inbox row with the pair
exists, and the duplicate `record` result returns that stored first row
unchanged. -/
theorem process_message_duplicate_second_call
    (reg1 reg2 : List (String × MessageHandler)) (st0 : InboxStore)
    (dto1 dto2 : CreateInboxMessageDto) (now1 now2 : Nat)
    (hmid : dto2.messageId = dto1.messageId) (hsrc : dto2.source = dto1.source)
    (hfresh : countByKey st0 dto1.messageId dto1.source = 0) :
    (process_message reg2 (process_message reg1 st0 dto1 now1).2.1 dto2 now2).1
        = .error (.duplicate dto1.messageId dto1.source)
      ∧ (process_message reg2 (process_message reg1 st0 dto1 now1).2.1 dto2 now2).2.1
        = (process_message reg1 st0 dto1 now1).2.1
      ∧ countByKey (process_message reg1 st0 dto1 now1).2.1
          dto1.messageId dto1.source = 1
      ∧ ∃ r, findByKey (process_message reg1 st0 dto1 now1).2.1
            dto1.messageId dto1.source = some r
          ∧ (Inbox.record (process_message reg1 st0 dto1 now1).2.1 dto2 now2).1
            = { message := r, isDuplicate := true } := by
  have hcount := process_message_adds_one reg1 st0 dto1 now1 hfresh
  obtain ⟨r, hr⟩ := findByKey_of_count_one hcount
  have hrec : Inbox.record (process_message reg1 st0 dto1 now1).2.1 dto2 now2
      = ({ message := r, isDuplicate := true },
         (process_message reg1 st0 dto1 now1).2.1) := by
    apply record_dup
    rw [hmid, hsrc]
    exact hr
  refine ⟨?_, ?_, hcount, r, hr, by rw [hrec]⟩
  · set st1 := (process_message reg1 st0 dto1 now1).2.1 with hst1
    have h1 : (process_message reg2 st1 dto2 now2).1
        = .error (.duplicate dto2.messageId dto2.source) := by
      simp [process_message, hrec]
    rw [h1, hmid, hsrc]
  · set st1 := (process_message reg1 st0 dto1 now1).2.1 with hst1
    simp [process_message, hrec]

/-- C2 witness: the same identity recorded twice into an empty store; the
second call fails with the duplicate error carrying that identity. -/
theorem process_message_duplicate_witness :
    (process_message [] (process_message [] wEmptyInbox wDto 0).2.1 wDto 1).1
      = .error (.duplicate "m1" "s1") :=
  (process_message_duplicate_second_call [] [] wEmptyInbox wDto wDto 0 1
    rfl rfl (by decide)).1

/-- C10: A `process_message` call never exits with the message left in the
`processing` state: whenever the trace contains `markProcessing i`, the
call's final operation is `markProcessed i` or `markFailed i e` — the
terminal mark always lands before the call returns or raises. -/
theorem process_message_processing_terminated (reg : List (String × MessageHandler))
    (st : InboxStore) (dto : CreateInboxMessageDto) (now : Nat) :
    ∀ i : Nat, InboxOp.markProcessing i ∈ (process_message reg st dto now).2.2 →
      (process_message reg st dto now).2.2.getLast?
          = some (InboxOp.markProcessed i)
        ∨ ∃ e, (process_message reg st dto now).2.2.getLast?
          = some (InboxOp.markFailed i e) := by
  intro i hi
  by_cases hd : (Inbox.record st dto now).1.isDuplicate = true
  · have ht : (process_message reg st dto now).2.2
        = [InboxOp.record dto.messageId dto.source] := by
      simp [process_message, hd]
    rw [ht] at hi
    simp at hi
  · by_cases he : (handlersFor reg dto.eventType).isEmpty = true
    · have ht : (process_message reg st dto now).2.2
          = [InboxOp.record dto.messageId dto.source,
             InboxOp.markProcessed (Inbox.record st dto now).1.message.id] := by
        simp [process_message, hd, he]
      rw [ht] at hi
      simp at hi
    · cases hrun : (runHandlersFrom dto.eventType (Inbox.record st dto now).1.message 0
          (handlersFor reg dto.eventType)).1 with
      | ok v =>
        have ht : (process_message reg st dto now).2.2
            = ([InboxOp.record dto.messageId dto.source,
                InboxOp.markProcessing (Inbox.record st dto now).1.message.id]
               ++ (runHandlersFrom dto.eventType (Inbox.record st dto now).1.message 0
                    (handlersFor reg dto.eventType)).2)
              ++ [InboxOp.markProcessed (Inbox.record st dto now).1.message.id] := by
          simp [process_message, hd, he, hrun]
        rw [ht] at hi
        rcases List.mem_append.mp hi with hi1 | hi1
        · rcases List.mem_append.mp hi1 with hi2 | hi2
          · rcases List.mem_cons.mp hi2 with heq | hi3
            · simp at heq
            · rcases List.mem_cons.mp hi3 with heq | hi4
              · injection heq with him
                subst him
                left
                rw [ht]
                exact List.getLast?_concat _
              · cases hi4
          · obtain ⟨k, hk⟩ := runHandlersFrom_trace _ _ _ 0 _ hi2
            simp at hk
        · rcases List.mem_cons.mp hi1 with heq | hi2
          · simp at heq
          · cases hi2
      | error e =>
        have ht : (process_message reg st dto now).2.2
            = ([InboxOp.record dto.messageId dto.source,
                InboxOp.markProcessing (Inbox.record st dto now).1.message.id]
               ++ (runHandlersFrom dto.eventType (Inbox.record st dto now).1.message 0
                    (handlersFor reg dto.eventType)).2)
              ++ [InboxOp.markFailed (Inbox.record st dto now).1.message.id e] := by
          simp [process_message, hd, he, hrun]
        rw [ht] at hi
        rcases List.mem_append.mp hi with hi1 | hi1
        · rcases List.mem_append.mp hi1 with hi2 | hi2
          · rcases List.mem_cons.mp hi2 with heq | hi3
            · simp at heq
            · rcases List.mem_cons.mp hi3 with heq | hi4
              · injection heq with him
                subst him
                right
                exact ⟨e, by rw [ht]; exact List.getLast?_concat _⟩
              · cases hi4
          · obtain ⟨k, hk⟩ := runHandlersFrom_trace _ _ _ 0 _ hi2
            simp at hk
        · rcases List.mem_cons.mp hi1 with heq | hi2
          · simp at heq
          · cases hi2

/-- C10 witness: one succeeding handler; the trace contains
`markProcessing 0` and the claim theorem places the terminal mark last. -/
theorem process_message_processing_terminated_witness :
    InboxOp.markProcessing 0 ∈ (process_message wRegOk wEmptyInbox wDto 5).2.2
      ∧ ((process_message wRegOk wEmptyInbox wDto 5).2.2.getLast?
            = some (InboxOp.markProcessed 0)
          ∨ ∃ e, (process_message wRegOk wEmptyInbox wDto 5).2.2.getLast?
            = some (InboxOp.markFailed 0 e)) :=
  ⟨by decide,
   process_message_processing_terminated wRegOk wEmptyInbox wDto 5 0 (by decide)⟩
